import Mathlib

/-!
# Verification of `srl_transformers/models.py`

A shallow embedding of the SRL-with-frame-disambiguation model module
(`srl_transformers/models.py`) together with theorems settling the
specification claims about it.

Conventions of the embedding:

* Python floats are modelled as exact rationals (`ℚ`).
* Tensors are nested lists (`List (List ℚ)` for 2-d, `List (List (List ℚ))`
  for 3-d); boolean-mask selection (`x[ind == 1]`) flattens in row-major
  order, as numpy/torch do.
* Fallible Python code (raising exceptions) is modelled with
  `Except String`; external calls that may raise are threaded in as
  `Except` arguments, so that "no handler in the module" shows up as
  strict propagation of `Except.error`.
* Framework primitives that the module merely calls (softmax, the two
  loss functions, `SrlBert.make_output_human_readable`) are parameters of
  the embedding, bundled in `Externals`; the two metric accumulators
  (`SrlEvalScorer`, `FBetaMeasure`) are opaque external state, modelled
  by their invocation counts.
* Python dictionaries are association lists with first-occurrence lookup
  (`dget`) and overwrite-on-assignment (`dictSet`), which matches Python
  dict semantics whenever keys are unique, and functional dictionaries
  built right-to-left (`pyDict`) where only lookups matter.
-/

/-- Python `str.split()` word-splitting on a list of characters: maximal
runs of non-whitespace characters, with the current (reversed) partial
word as accumulator. -/
def wordsAux : List Char → List Char → List (List Char)
  | [], cur => if cur = [] then [] else [cur.reverse]
  | c :: cs, cur =>
    if c.isWhitespace then
      if cur = [] then wordsAux cs [] else cur.reverse :: wordsAux cs []
    else wordsAux cs (c :: cur)

/-- Python `str.split()` with no argument: split on whitespace runs,
discarding empty pieces. -/
def pySplit (s : String) : List String :=
  (wordsAux s.toList []).map (fun w => String.mk w)

/-- One step of `read_dictionary`'s loop, and the loop itself:
`k, *v = l.split(); dictionary[k] += v` over the lines of the file, with
the defaultdict modelled as a total function returning `[]` by default.
A line with no tokens makes the unpacking `k, *v = []` raise. -/
def read_dictionary_lines : List String → (String → List String) →
    Except String (String → List String)
  | [], d => Except.ok d
  | l :: ls, d =>
    match pySplit l with
    | [] => Except.error "ValueError: not enough values to unpack"
    | k :: v => read_dictionary_lines ls (fun q => if q = k then d q ++ v else d q)

/-- `read_dictionary`: fold the lines of the (already opened) file into a
lemma-to-frames dictionary. -/
def read_dictionary (lines : List String) : Except String (String → List String) :=
  read_dictionary_lines lines (fun _ => [])

/-- `read_dictionary` applied to the result of `open(filename)`: the open
may itself fail, and the module installs no handler around it. -/
def read_dictionary_file (openResult : Except String (List String)) :
    Except String (String → List String) :=
  match openResult with
  | Except.error e => Except.error e
  | Except.ok lines => read_dictionary lines

/-- The frames a single line of the resource file lists for `lem`: the
tokens after the first, when the first token is `lemma`.  This definition
follows the spec/claim wording ("the frames listed for it in the file")
and is compared against `read_dictionary`. -/
def lineFramesFor (lem : String) (l : String) : List String :=
  match pySplit l with
  | [] => []
  | k :: v => if k = lem then v else []

/-- All frames the file lists for `lem`, in file order.  Spec-side
definition for the refinement in claim C3. -/
def framesListedFor (lines : List String) (lem : String) : List String :=
  (lines.map (lineFramesFor lem)).flatten

theorem read_dictionary_lines_ok (lines : List String) (d : String → List String)
    (h : ∀ l ∈ lines, pySplit l ≠ []) :
    ∃ d2, read_dictionary_lines lines d = Except.ok d2 ∧
      ∀ q, d2 q = d q ++ framesListedFor lines q := by
  induction lines generalizing d with
  | nil =>
    refine ⟨d, rfl, fun q => ?_⟩
    simp [framesListedFor]
  | cons l ls ih =>
    have hl : pySplit l ≠ [] := h l (List.mem_cons_self l ls)
    obtain ⟨k, v, hkv⟩ : ∃ k v, pySplit l = k :: v := by
      cases hsp : pySplit l with
      | nil => exact absurd hsp hl
      | cons k v => exact ⟨k, v, rfl⟩
    obtain ⟨d2, hok, hd2⟩ :=
      ih (fun q => if q = k then d q ++ v else d q)
        (fun l2 hl2 => h l2 (List.mem_cons_of_mem l hl2))
    refine ⟨d2, ?_, fun q => ?_⟩
    · simp [read_dictionary_lines, hkv, hok]
    · rw [hd2 q]
      by_cases hq : q = k
      · subst hq
        simp [framesListedFor, lineFramesFor, hkv, List.append_assoc]
      · simp [framesListedFor, lineFramesFor, hkv, hq, Ne.symm hq]

theorem read_dictionary_lines_error (lines : List String)
    (d : String → List String) (hbad : ∃ l ∈ lines, pySplit l = []) :
    ∃ e, read_dictionary_lines lines d = Except.error e := by
  induction lines generalizing d with
  | nil => simp at hbad
  | cons l ls ih =>
    by_cases hl : pySplit l = []
    · exact ⟨"ValueError: not enough values to unpack", by
        simp [read_dictionary_lines, hl]⟩
    · obtain ⟨k, v, hkv⟩ : ∃ k v, pySplit l = k :: v := by
        cases hsp : pySplit l with
        | nil => exact absurd hsp hl
        | cons k v => exact ⟨k, v, rfl⟩
      obtain ⟨l2, hl2, hl2bad⟩ := hbad
      rcases List.mem_cons.mp hl2 with h1 | h2
      · subst h1; exact absurd hl2bad hl
      · obtain ⟨e, he⟩ :=
          ih (fun q => if q = k then d q ++ v else d q) ⟨l2, h2, hl2bad⟩
        exact ⟨e, by simp [read_dictionary_lines, hkv, he]⟩

/-- A whitespace-only line splits into no tokens. -/
theorem pySplit_of_all_whitespace (s : String)
    (h : ∀ c ∈ s.toList, c.isWhitespace) : pySplit s = [] := by
  unfold pySplit
  suffices hs : wordsAux s.data [] = [] by simp [hs]
  have : ∀ cs : List Char, (∀ c ∈ cs, c.isWhitespace) → wordsAux cs [] = [] := by
    intro cs
    induction cs with
    | nil => intro _; simp [wordsAux]
    | cons c cs ih =>
      intro hcs
      have hc : c.isWhitespace := hcs c (List.mem_cons_self c cs)
      simp [wordsAux, hc, ih (fun x hx => hcs x (List.mem_cons_of_mem c hx))]
  exact this s.toList h

/-- C3: `read_dictionary` parses the file by whitespace: when every line
has at least one token, reading succeeds, and looking a lemma up in the
resulting dictionary yields exactly the frames the file lists for it
(the post-first tokens of its lines, in order). -/
theorem C3_read_dictionary_whitespace (lines : List String)
    (h : ∀ l ∈ lines, pySplit l ≠ []) :
    ∃ d, read_dictionary lines = Except.ok d ∧
      ∀ lem, d lem = framesListedFor lines lem := by
  obtain ⟨d2, hok, hd2⟩ := read_dictionary_lines_ok lines (fun _ => []) h
  exact ⟨d2, hok, fun lem => by simpa using hd2 lem⟩

/-- Witness for C3 on the concrete file
`["run MOTION CHANGE", "eat INGEST", "run HURT"]`. -/
theorem C3_read_dictionary_whitespace_witness :
    (∀ l ∈ ["run MOTION CHANGE", "eat INGEST", "run HURT"], pySplit l ≠ []) ∧
      ∃ d, read_dictionary ["run MOTION CHANGE", "eat INGEST", "run HURT"] =
          Except.ok d ∧
        ∀ lem,
          d lem =
            framesListedFor ["run MOTION CHANGE", "eat INGEST", "run HURT"] lem := by
  refine ⟨by decide, ?_⟩
  exact C3_read_dictionary_whitespace
    ["run MOTION CHANGE", "eat INGEST", "run HURT"] (by decide)

/-- C8: a file containing a blank or whitespace-only line makes
`read_dictionary` raise: the unpacking `k, *v = l.split()` needs at least
one token. -/
theorem C8_read_dictionary_blank_line_error (lines : List String) (l : String)
    (hmem : l ∈ lines) (hws : ∀ c ∈ l.toList, c.isWhitespace) :
    ∃ e, read_dictionary lines = Except.error e := by
  exact read_dictionary_lines_error lines (fun _ => [])
    ⟨l, hmem, pySplit_of_all_whitespace l hws⟩

/-- Witness for C8 on the concrete file `["run MOTION", " "]`. -/
theorem C8_read_dictionary_blank_line_error_witness :
    (" " ∈ ["run MOTION", " "] ∧ ∀ c ∈ " ".toList, c.isWhitespace) ∧
      ∃ e, read_dictionary ["run MOTION", " "] = Except.error e := by
  refine ⟨⟨by decide, by decide⟩, ?_⟩
  exact C8_read_dictionary_blank_line_error ["run MOTION", " "] " "
    (by decide) (by decide)

/-! ## The output dictionary and the model state -/

/-- The values a `forward`/`decode` output dictionary can hold: 3-d and
2-d float tensors, the boolean mask, scalar losses, and the per-example
metadata lists. -/
inductive Val where
  | t3 (x : List (List (List ℚ)))
  | t2 (x : List (List ℚ))
  | tmask (x : List (List Bool))
  | vq (x : ℚ)
  | vwords (x : List (List String))
  | vstrs (x : List String)
  | voffs (x : List (List Nat))
  deriving DecidableEq

/-- A Python dictionary from string keys, as an association list. -/
abbrev OutDict : Type := List (String × Val)

/-- Python `d[k]` lookup (first occurrence; keys are unique in every dict
the module builds). -/
def dget (d : OutDict) (k : String) : Option Val :=
  match d with
  | [] => none
  | p :: ps => if p.1 = k then some p.2 else dget ps k

/-- Python `d[k] = v` assignment: overwrite the binding if the key is
present, otherwise append it. -/
def dictSet (d : OutDict) (k : String) (v : Val) : OutDict :=
  if (dget d k).isSome then
    d.map (fun p => if p.1 = k then (k, v) else p)
  else
    d ++ [(k, v)]

/-- Python `d.pop(k)`: remove the binding, raising `KeyError` when the
key is absent. -/
def dictPop (d : OutDict) (k : String) : Except String OutDict :=
  if (dget d k).isSome then
    Except.ok (d.filter (fun p => p.1 != k))
  else
    Except.error "KeyError"

/-- One per-example metadata dictionary, with the fields the module
reads: original words, the verb, wordpiece start offsets, the lemma list,
the verb index, and the gold tags. -/
structure Metadata where
  words : List String
  verb : String
  offsets : List Nat
  lemmas : List String
  verb_index : Nat
  gold_tags : List String
  deriving DecidableEq

/-- The mutable model state of `SrlTransformers`: the lemma-to-frames
dictionary loaded at construction, the vocabulary views used for frame
decoding (fallible, as AllenNLP lookups raise on unknown entries), the
two projection layers, and the two metric accumulators.  The external
metric objects are opaque; we model each by how many times it has been
invoked (`span_metric = none` models `srl_eval_path=None`). -/
structure Model where
  lemm_frame_dict : String → List String
  vocabIdx : String → Except String Nat
  vocabTok : Nat → Except String String
  num_classes : Nat
  frame_num_classes : Nat
  tagW : List (List ℚ)
  tagB : List ℚ
  frameW : List (List ℚ)
  frameB : List ℚ
  span_metric : Option Nat
  f1_frame_metric : Nat
  ignore_span_metric : Bool
  training : Bool

/-- The framework primitives the module calls but does not define:
row softmax, `sequence_cross_entropy_with_logits`, the
`torch.nn.CrossEntropyLoss` criterion, and the inherited
`SrlBert.make_output_human_readable` (viterbi BIO decoding plus
wordpiece-to-word conversion). -/
structure Externals where
  sm : List ℚ → List ℚ
  scel : List (List (List ℚ)) → List (List Nat) → List (List Bool) → ℚ
  ce : List (List ℚ) → List Nat → ℚ
  superMohr : OutDict → OutDict

/-- Dot product of two rational vectors. -/
def dotQ (a b : List ℚ) : ℚ := ((a.zip b).map (fun p => p.1 * p.2)).sum

/-- A `torch.nn.Linear` layer: one output per weight row, `w · x + b`. -/
def linear (w : List (List ℚ)) (b : List ℚ) (x : List ℚ) : List ℚ :=
  (w.zip b).map (fun rw => dotQ rw.1 x + rw.2)

/-- Boolean-mask selection `x[ind == 1]` on a 2-d structure of `α`
entries: keep the entries at positions where the indicator is 1,
flattened in row-major order. -/
def maskSel {α : Type} (x : List (List α)) (ind : List (List Nat)) : List α :=
  ((x.zip ind).map
    (fun p => (p.1.zip p.2).filterMap
      (fun q => if q.2 = 1 then some q.1 else none))).flatten

/-! ## `decode_frames` and the numpy calls it makes -/

/-- A 0-d numpy array (numpy scalar), as produced by `np.take` with a
scalar index. -/
structure NpScalar where
  val : ℚ
  deriving DecidableEq

/-- `.size` of a numpy scalar is always 1. -/
def npScalarSize (_ : NpScalar) : Nat := 1

/-- `np.take(fp, i)` with a scalar index: the element at `i`, raising
`IndexError` out of bounds. -/
def npTake (fp : List ℚ) (i : Nat) : Except String NpScalar :=
  match fp.get? i with
  | some x => Except.ok ⟨x⟩
  | none => Except.error "IndexError: index out of bounds"

/-- `scalar.argmax(dim=-1)`: numpy scalars only accept `axis`, never the
torch keyword `dim`, so the call raises `TypeError`. -/
def npScalarArgmaxDimKw (_ : NpScalar) : Except String Nat :=
  Except.error "TypeError: argmax got an unexpected keyword argument dim"

/-- `arr.argmax(dim=-1)` on a 1-d numpy array: same `TypeError`, numpy
`argmax` has no `dim` keyword. -/
def npArrayArgmaxDimKw (_ : List ℚ) : Except String Nat :=
  Except.error "TypeError: argmax got an unexpected keyword argument dim"

/-- `SrlTransformers.decode_frames` (models.py lines 228-250), statement
by statement: read `frame_probabilities` and `lemmas` from the output
dictionary, look each lemma up in `lemm_frame_dict` (with default `[]`),
flatten the per-lemma candidate lists into one flat list of vocabulary
ids, zip that flat list against the probability rows, and for each pair
run `np.take` and then `argmax(dim=-1)`; finally map the predictions
through `get_token_from_index` and store them under `"frame_tags"`.
The model state is passed through to make the absence of state mutation
explicit. -/
def decode_frames (m : Model) (output_dict : OutDict) :
    Except String (OutDict × Model) :=
  match dget output_dict "frame_probabilities", dget output_dict "lemmas" with
  | some (Val.t2 frame_probabilities), some (Val.vstrs lemmas) =>
    -- candidate_labels = [self.lemm_frame_dict.get(l, []) for l in lemmas]
    match (lemmas.map m.lemm_frame_dict).flatten.mapM m.vocabIdx with
    | Except.error e => Except.error e
    | Except.ok candidate_labels_ids =>
      match (candidate_labels_ids.zip frame_probabilities).mapM
          (fun p =>
            match npTake p.2 p.1 with
            | Except.error e => Except.error e
            | Except.ok fp_candidates =>
              if 0 < npScalarSize fp_candidates then
                npScalarArgmaxDimKw fp_candidates
              else
                npArrayArgmaxDimKw p.2) with
      | Except.error e => Except.error e
      | Except.ok frame_predictions =>
        match frame_predictions.mapM m.vocabTok with
        | Except.error e => Except.error e
        | Except.ok frame_tokens =>
          Except.ok (dictSet output_dict "frame_tags" (Val.vstrs frame_tokens), m)
  | _, _ => Except.error "KeyError"

/-- `SrlTransformers.make_output_human_readable` (lines 252-258): the
inherited conversion, then `decode_frames` on its result. -/
def make_output_human_readable (m : Model) (ext : Externals)
    (output_dict : OutDict) : Except String (OutDict × Model) :=
  decode_frames m (ext.superMohr output_dict)

/-! ## `forward` -/

/-- The output dictionary `forward` has built by line 186: the five
tensor entries of the dict literal (lines 173-179), then the four
metadata-derived entries (lines 183-186).  `forward` only uses it when
`metadata` is non-empty (the `zip(*...)` unpacking at line 181 raises on
an empty batch). -/
def forwardBase (m : Model) (ext : Externals)
    (mask : List (List Bool))
    (embedded_text_input : List (List (List ℚ)))
    (frame_indicator : List (List Nat))
    (metadata : List Metadata) : OutDict :=
  let frame_embeddings := maskSel embedded_text_input frame_indicator
  let logits := embedded_text_input.map (fun row => row.map (linear m.tagW m.tagB))
  let frame_logits := frame_embeddings.map (linear m.frameW m.frameB)
  let class_probabilities := logits.map (fun row => row.map ext.sm)
  let frame_probabilities := frame_logits.map ext.sm
  let output_dict : OutDict :=
    [("logits", Val.t3 logits),
     ("frame_logits", Val.t2 frame_logits),
     ("class_probabilities", Val.t3 class_probabilities),
     ("frame_probabilities", Val.t2 frame_probabilities),
     ("mask", Val.tmask mask)]
  dictSet (dictSet (dictSet (dictSet output_dict
    "words" (Val.vwords (metadata.map Metadata.words)))
    "lemmas" (Val.vstrs ((metadata.map Metadata.lemmas).flatten)))
    "verb" (Val.vstrs (metadata.map Metadata.verb)))
    "wordpiece_offsets" (Val.voffs (metadata.map Metadata.offsets))

/-- `SrlTransformers.forward` (lines 101-226), from the point where the
embedded text is available: mask selection of the frame embeddings, the
two projection heads, the softmaxes, the output dictionary, the metadata
entries (raising when the batch is empty), and — when gold `tags` are
given — the two losses, the span-metric update in evaluation mode (which
runs `make_output_human_readable` and pops `"tags"`), the frame-metric
update, and the three loss entries with
`loss = (role_loss + frame_loss) / 2`. -/
def forward (m : Model) (ext : Externals)
    (mask : List (List Bool))
    (embedded_text_input : List (List (List ℚ)))
    (frame_indicator : List (List Nat))
    (metadata : List Metadata)
    (tags : Option (List (List Nat)))
    (frame_tags : Option (List (List Nat))) :
    Except String (OutDict × Model) :=
  if metadata.isEmpty then
    Except.error "ValueError: not enough values to unpack"
  else
    let logits := embedded_text_input.map (fun row => row.map (linear m.tagW m.tagB))
    let frame_logits :=
      (maskSel embedded_text_input frame_indicator).map (linear m.frameW m.frameB)
    let output_dict := forwardBase m ext mask embedded_text_input frame_indicator metadata
    match tags with
    | none => Except.ok (output_dict, m)
    | some tags =>
      match frame_tags with
      | none => Except.error "TypeError: NoneType object is not subscriptable"
      | some frame_tags =>
        let role_loss := ext.scel logits tags mask
        let frame_tags_filtered := maskSel frame_tags frame_indicator
        let frame_loss := ext.ce frame_logits frame_tags_filtered
        let afterSpan : Except String (OutDict × Model) :=
          if m.ignore_span_metric = false ∧ m.span_metric.isSome ∧ m.training = false then
            match make_output_human_readable m ext output_dict with
            | Except.error e => Except.error e
            | Except.ok (d2, m2) =>
              match dictPop d2 "tags" with
              | Except.error e => Except.error e
              | Except.ok d3 =>
                Except.ok (d3, { m2 with span_metric := m2.span_metric.map (fun c => c + 1) })
          else Except.ok (output_dict, m)
        match afterSpan with
        | Except.error e => Except.error e
        | Except.ok (d4, m4) =>
          let m5 := { m4 with f1_frame_metric := m4.f1_frame_metric + 1 }
          Except.ok
            (dictSet (dictSet (dictSet d4
              "frame_loss" (Val.vq frame_loss))
              "role_loss" (Val.vq role_loss))
              "loss" (Val.vq ((role_loss + frame_loss) / 2)), m5)

/-- `forward` including the preceding external calls of lines 150-157:
the BERT encoder (whose result may be an exception, propagated
unhandled) and the embedding dropout. -/
def forward_full (m : Model) (ext : Externals)
    (mask : List (List Bool))
    (bertResult : Except String (List (List (List ℚ))))
    (dropoutF : List (List (List ℚ)) → List (List (List ℚ)))
    (frame_indicator : List (List Nat))
    (metadata : List Metadata)
    (tags : Option (List (List Nat)))
    (frame_tags : Option (List (List Nat))) :
    Except String (OutDict × Model) :=
  match bertResult with
  | Except.error e => Except.error e
  | Except.ok bert_embeddings =>
    forward m ext mask (dropoutF bert_embeddings) frame_indicator metadata tags frame_tags

/-! ## Construction -/

/-- `SrlTransformers.__init__` (lines 63-99), from the point of view of
the state the claims are about: open and read the lemma-to-frames
resource (both fallible, neither caught), store the vocabulary views and
projection parameters, build the span metric when an `srl_eval_path` is
given, and start the frame metric fresh. -/
def srlInit (openResult : Except String (List String))
    (vocabIdx : String → Except String Nat)
    (vocabTok : Nat → Except String String)
    (num_classes frame_num_classes : Nat)
    (tagW : List (List ℚ)) (tagB : List ℚ)
    (frameW : List (List ℚ)) (frameB : List ℚ)
    (srl_eval_path_given : Bool) (ignore_span_metric : Bool) :
    Except String Model :=
  match read_dictionary_file openResult with
  | Except.error e => Except.error e
  | Except.ok d =>
    Except.ok
      { lemm_frame_dict := d
        vocabIdx := vocabIdx
        vocabTok := vocabTok
        num_classes := num_classes
        frame_num_classes := frame_num_classes
        tagW := tagW, tagB := tagB, frameW := frameW, frameB := frameB
        span_metric := if srl_eval_path_given then some 0 else none
        f1_frame_metric := 0
        ignore_span_metric := ignore_span_metric
        training := true }

/-! ## `get_metrics` -/

/-- Is `pat` a prefix of `s` (on character lists)? -/
def listPre : List Char → List Char → Bool
  | [], _ => true
  | _ :: _, [] => false
  | a :: as, b :: bs => a = b && listPre as bs

/-- Does `pat` occur contiguously inside `s` (on character lists)? -/
def listSub (pat : List Char) : List Char → Bool
  | [] => listPre pat []
  | b :: bs => listPre pat (b :: bs) || listSub pat bs

/-- Python `pat in s` substring containment. -/
def strHasSub (s pat : String) : Bool := listSub pat.toList s.toList

/-- Python `x.split("-")[0]`. -/
def dashHead (s : String) : String := (s.splitOn "-").headD ""

/-- The lookup function of the Python dictionary built from `ps` in
order, later bindings overriding earlier ones: the last binding of the
key wins. -/
def pyDict (ps : List (String × ℚ)) (k : String) : Option ℚ :=
  (ps.reverse.find? (fun p => p.1 == k)).map (fun p => p.2)

/-- `SrlTransformers.get_metrics` (lines 260-276).  The two external
`get_metric(reset)` results are inputs (`metric_dict` from the span
scorer, `frame_metric_dict` from the frame F-measure).  Returns `{}`
when `ignore_span_metric` is set — before either `get_metric` call, so
nothing is reset in that branch; otherwise raises if the span scorer is
`None`, and else forwards `reset` into the two `get_metric` calls
(clearing both accumulators) and merges the filtered, `_role`-renamed
overall span entries with the `_frame`-renamed frame entries. -/
def get_metrics (m : Model) (reset : Bool)
    (metric_dict frame_metric_dict : List (String × ℚ)) :
    Except String ((String → Option ℚ) × Model) :=
  if m.ignore_span_metric then
    Except.ok (pyDict [], m)
  else
    match m.span_metric with
    | none => Except.error "AttributeError: NoneType object has no attribute get_metric"
    | some _ =>
      let m2 := if reset then
          { m with span_metric := m.span_metric.map (fun _ => 0), f1_frame_metric := 0 }
        else m
      let metric_dict_filtered :=
        (metric_dict.filter (fun p => strHasSub p.1 "overall")).map
          (fun p => (dashHead p.1 ++ "_role", p.2))
      let frame_metric_dict2 :=
        frame_metric_dict.map (fun p => (p.1 ++ "_frame", p.2))
      Except.ok (pyDict (metric_dict_filtered ++ frame_metric_dict2), m2)

/-! ## Dictionary lemmas -/

theorem dget_append (d1 d2 : OutDict) (k : String) :
    dget (d1 ++ d2) k = ((dget d1 k).rec (dget d2 k) (fun v => some v)) := by
  induction d1 with
  | nil => simp [dget]
  | cons p ps ih =>
    by_cases hp : p.1 = k <;> simp [dget, hp, ih]

theorem dget_map_overwrite (d : OutDict) (k : String) (v : Val)
    (h : (dget d k).isSome) :
    dget (d.map (fun p => if p.1 = k then (k, v) else p)) k = some v := by
  induction d with
  | nil => simp [dget] at h
  | cons p ps ih =>
    by_cases hp : p.1 = k
    · simp [dget, hp]
    · have h2 : (dget ps k).isSome := by simpa [dget, hp] using h
      simpa [dget, hp] using ih h2

theorem dget_map_ne (d : OutDict) (k k2 : String) (v : Val) (h : k2 ≠ k) :
    dget (d.map (fun p => if p.1 = k then (k, v) else p)) k2 = dget d k2 := by
  induction d with
  | nil => rfl
  | cons p ps ih =>
    by_cases hp : p.1 = k
    · simp [dget, hp, Ne.symm h, ih]
    · by_cases hp2 : p.1 = k2 <;> simp [dget, hp, hp2, h, ih]

theorem dget_dictSet_self (d : OutDict) (k : String) (v : Val) :
    dget (dictSet d k v) k = some v := by
  unfold dictSet
  by_cases h : (dget d k).isSome
  · simpa [h] using dget_map_overwrite d k v h
  · have h2 : dget d k = none := Option.not_isSome_iff_eq_none.mp h
    simp [h, dget_append, h2, dget]

theorem dget_dictSet_ne (d : OutDict) (k k2 : String) (v : Val) (h : k2 ≠ k) :
    dget (dictSet d k v) k2 = dget d k2 := by
  unfold dictSet
  by_cases hs : (dget d k).isSome
  · simpa [hs] using dget_map_ne d k k2 v h
  · simp only [hs, if_false, Bool.false_eq_true, dget_append]
    have hne : dget [(k, v)] k2 = none := by simp [dget, Ne.symm h]
    cases hd : dget d k2 <;> simp [hd, hne, dget, Ne.symm h]

theorem dget_filter_ne (d : OutDict) (k k2 : String) (h : k2 ≠ k) :
    dget (d.filter (fun p => p.1 != k)) k2 = dget d k2 := by
  induction d with
  | nil => rfl
  | cons p ps ih =>
    by_cases hp : p.1 = k
    · simp [dget, hp, Ne.symm h, ih]
    · by_cases hp2 : p.1 = k2 <;>
        simp [List.filter_cons, bne_iff_ne, dget, hp, hp2, h, ih]

/-- Collapse of a successful `decode_frames`: the model state comes back
untouched and the dictionary is the input with a `"frame_tags"` entry
assigned. -/
theorem decode_frames_ok (m : Model) (d0 d2 : OutDict) (m2 : Model)
    (h : decode_frames m d0 = Except.ok (d2, m2)) :
    m2 = m ∧ ∃ toks, d2 = dictSet d0 "frame_tags" (Val.vstrs toks) := by
  unfold decode_frames at h
  split at h
  case h_2 => exact absurd h (by simp)
  case h_1 fp lemmas hfp hlem =>
    split at h
    case h_1 => exact absurd h (by simp)
    case h_2 ids hids =>
      split at h
      case h_1 => exact absurd h (by simp)
      case h_2 preds hpreds =>
        split at h
        case h_1 => exact absurd h (by simp)
        case h_2 toks htoks =>
          injection h with h2
          injection h2 with hd hm
          exact ⟨hm.symm, toks, hd.symm⟩

/-! ## C1: `decode_frames` on a concrete batch -/

/-- A concrete model for exercising `decode_frames`: the lemma `"run"`
has the single candidate frame `"MOTION"`, whose index in the
`frames_labels` vocabulary is 0. -/
def mC1 : Model where
  lemm_frame_dict := fun l => if l = "run" then ["MOTION"] else []
  vocabIdx := fun t => if t = "MOTION" then Except.ok 0 else Except.error "KeyError"
  vocabTok := fun i => if i = 0 then Except.ok "MOTION" else Except.error "KeyError"
  num_classes := 2
  frame_num_classes := 2
  tagW := []
  tagB := []
  frameW := []
  frameB := []
  span_metric := some 0
  f1_frame_metric := 0
  ignore_span_metric := false
  training := false

/-- A concrete output dictionary for one example: one frame-probability
row `[3/5, 2/5]` and the single lemma `"run"`. -/
def dC1 : OutDict :=
  [("frame_probabilities", Val.t2 [[(3 : ℚ)/5, 2/5]]),
   ("lemmas", Val.vstrs ["run"])]

/-- C1 (code bug): on a batch whose one lemma `"run"` has the candidate
frame `"MOTION"` (index 0) and whose frame probabilities are
`[3/5, 2/5]`, the claim expects `"frame_tags" = ["MOTION"]`; instead
`decode_frames` raises, because `fp_candidates.argmax(dim=-1)` calls
numpy `argmax` with the torch-only keyword `dim`. -/
theorem C1_decode_frames_typeerror :
    decode_frames mC1 dC1 =
      Except.error "TypeError: argmax got an unexpected keyword argument dim" := by
  rfl

/-! ## Case analysis of `forward` -/

/-- Collapse of a successful `forward` call with gold tags: the returned
dictionary is some base dictionary `d4` with the three loss entries
assigned on top (with exactly the two computed loss terms and their
mean), the returned model is `d4`'s model with the frame-metric
accumulator bumped, the lemma dictionary is untouched, and `d4` keeps
every binding of the pre-loss dictionary other than `"tags"` and
`"frame_tags"` whenever the inherited decoding step only adds bindings. -/
theorem forward_some_ok (m : Model) (ext : Externals)
    (mask : List (List Bool)) (e : List (List (List ℚ)))
    (fi : List (List Nat)) (md : List Metadata)
    (tg ftg : List (List Nat)) (d : OutDict) (m2 : Model)
    (hok : forward m ext mask e fi md (some tg) (some ftg) = Except.ok (d, m2)) :
    ∃ (d4 : OutDict) (m4 : Model),
      d = dictSet (dictSet (dictSet d4
          "frame_loss" (Val.vq (ext.ce ((maskSel e fi).map (linear m.frameW m.frameB)) (maskSel ftg fi))))
          "role_loss" (Val.vq (ext.scel (e.map (fun row => row.map (linear m.tagW m.tagB))) tg mask)))
          "loss" (Val.vq ((ext.scel (e.map (fun row => row.map (linear m.tagW m.tagB))) tg mask +
              ext.ce ((maskSel e fi).map (linear m.frameW m.frameB)) (maskSel ftg fi)) / 2)) ∧
      m2 = { m4 with f1_frame_metric := m4.f1_frame_metric + 1 } ∧
      m4.lemm_frame_dict = m.lemm_frame_dict ∧
      (∀ k v, k ≠ "tags" → k ≠ "frame_tags" →
        (∀ d0 k0 v0, dget d0 k0 = some v0 → dget (ext.superMohr d0) k0 = some v0) →
        dget (forwardBase m ext mask e fi md) k = some v →
        dget d4 k = some v) := by
  cases hE : md.isEmpty with
  | true =>
    rw [forward, hE] at hok
    simp at hok
  | false =>
    by_cases hc : m.ignore_span_metric = false ∧ m.span_metric.isSome ∧ m.training = false
    · cases hmo : make_output_human_readable m ext (forwardBase m ext mask e fi md) with
      | error e2 =>
        rw [forward, hE] at hok
        simp [hc, hmo] at hok
      | ok pr =>
        obtain ⟨d2, m2'⟩ := pr
        cases hpop : dictPop d2 "tags" with
        | error e3 =>
          rw [forward, hE] at hok
          simp [hc, hmo, hpop] at hok
        | ok d3 =>
          have hfwd : forward m ext mask e fi md (some tg) (some ftg) =
              Except.ok
                (dictSet (dictSet (dictSet d3
                  "frame_loss" (Val.vq (ext.ce ((maskSel e fi).map (linear m.frameW m.frameB)) (maskSel ftg fi))))
                  "role_loss" (Val.vq (ext.scel (e.map (fun row => row.map (linear m.tagW m.tagB))) tg mask)))
                  "loss" (Val.vq ((ext.scel (e.map (fun row => row.map (linear m.tagW m.tagB))) tg mask +
                    ext.ce ((maskSel e fi).map (linear m.frameW m.frameB)) (maskSel ftg fi)) / 2)),
                 { ({ m2' with span_metric := Option.map (fun c => c + 1) m2'.span_metric }) with
                    f1_frame_metric := m2'.f1_frame_metric + 1 }) := by
            rw [forward, hE]
            simp [hc, hmo, hpop]
          rw [hfwd] at hok
          simp only [Except.ok.injEq, Prod.mk.injEq] at hok
          obtain ⟨hd, hm⟩ := hok
          obtain ⟨hm2', toks, hd2⟩ :=
            decode_frames_ok m (ext.superMohr (forwardBase m ext mask e fi md)) d2 m2'
              (by simpa [make_output_human_readable] using hmo)
          refine ⟨d3,
            { m2' with span_metric := Option.map (fun c => c + 1) m2'.span_metric },
            hd.symm, hm.symm, by simp [hm2'], ?_⟩
          intro k v hk1 hk2 hsm hbase
          have hstep : dget d2 k = some v := by
            rw [hd2, dget_dictSet_ne _ _ _ _ hk2]
            exact hsm _ _ _ hbase
          have hd3 : d3 = d2.filter (fun p => p.1 != "tags") := by
            unfold dictPop at hpop
            by_cases hin : (dget d2 "tags").isSome
            · rw [if_pos hin] at hpop; injection hpop with h4; exact h4.symm
            · rw [if_neg hin] at hpop; cases hpop
          rw [hd3, dget_filter_ne _ _ _ hk1]
          exact hstep
    · have hfwd : forward m ext mask e fi md (some tg) (some ftg) =
          Except.ok
            (dictSet (dictSet (dictSet (forwardBase m ext mask e fi md)
              "frame_loss" (Val.vq (ext.ce ((maskSel e fi).map (linear m.frameW m.frameB)) (maskSel ftg fi))))
              "role_loss" (Val.vq (ext.scel (e.map (fun row => row.map (linear m.tagW m.tagB))) tg mask)))
              "loss" (Val.vq ((ext.scel (e.map (fun row => row.map (linear m.tagW m.tagB))) tg mask +
                ext.ce ((maskSel e fi).map (linear m.frameW m.frameB)) (maskSel ftg fi)) / 2)),
             { m with f1_frame_metric := m.f1_frame_metric + 1 }) := by
        rw [forward, hE]
        simp [hc]
      rw [hfwd] at hok
      simp only [Except.ok.injEq, Prod.mk.injEq] at hok
      obtain ⟨hd, hm⟩ := hok
      exact ⟨forwardBase m ext mask e fi md, m, hd.symm, hm.symm, rfl,
        fun k v _ _ _ hbase => hbase⟩

/-- The nine bindings the output dictionary always carries after
line 186, with their exact values. -/
theorem forwardBase_bindings (m : Model) (ext : Externals)
    (mask : List (List Bool)) (e : List (List (List ℚ)))
    (fi : List (List Nat)) (md : List Metadata) :
    dget (forwardBase m ext mask e fi md) "logits" =
      some (Val.t3 (e.map (fun row => row.map (linear m.tagW m.tagB)))) ∧
    dget (forwardBase m ext mask e fi md) "frame_logits" =
      some (Val.t2 ((maskSel e fi).map (linear m.frameW m.frameB))) ∧
    dget (forwardBase m ext mask e fi md) "class_probabilities" =
      some (Val.t3 ((e.map (fun row => row.map (linear m.tagW m.tagB))).map
        (fun row => row.map ext.sm))) ∧
    dget (forwardBase m ext mask e fi md) "frame_probabilities" =
      some (Val.t2 (((maskSel e fi).map (linear m.frameW m.frameB)).map ext.sm)) ∧
    dget (forwardBase m ext mask e fi md) "mask" = some (Val.tmask mask) ∧
    dget (forwardBase m ext mask e fi md) "words" =
      some (Val.vwords (md.map Metadata.words)) ∧
    dget (forwardBase m ext mask e fi md) "lemmas" =
      some (Val.vstrs ((md.map Metadata.lemmas).flatten)) ∧
    dget (forwardBase m ext mask e fi md) "verb" =
      some (Val.vstrs (md.map Metadata.verb)) ∧
    dget (forwardBase m ext mask e fi md) "wordpiece_offsets" =
      some (Val.voffs (md.map Metadata.offsets)) := by
  refine ⟨?_, ?_, ?_, ?_, ?_, ?_, ?_, ?_, ?_⟩ <;>
    simp [forwardBase, dictSet, dget]

/-- The loss, tag and frame-tag keys are never present before the
gold-tag branch runs. -/
theorem forwardBase_absent (m : Model) (ext : Externals)
    (mask : List (List Bool)) (e : List (List (List ℚ)))
    (fi : List (List Nat)) (md : List Metadata) :
    dget (forwardBase m ext mask e fi md) "loss" = none ∧
    dget (forwardBase m ext mask e fi md) "role_loss" = none ∧
    dget (forwardBase m ext mask e fi md) "frame_loss" = none ∧
    dget (forwardBase m ext mask e fi md) "tags" = none ∧
    dget (forwardBase m ext mask e fi md) "frame_tags" = none := by
  refine ⟨?_, ?_, ?_, ?_, ?_⟩ <;>
    simp [forwardBase, dictSet, dget]

/-- Any binding of the pre-loss dictionary other than the five keys the
gold-tag branch may touch survives into the dictionary `forward`
returns, provided the inherited decoding step only adds bindings. -/
theorem forward_ok_preserves_base (m : Model) (ext : Externals)
    (mask : List (List Bool)) (e : List (List (List ℚ)))
    (fi : List (List Nat)) (md : List Metadata)
    (tg ftg : Option (List (List Nat))) (d : OutDict) (m2 : Model)
    (hsm : ∀ d0 k0 v0, dget d0 k0 = some v0 → dget (ext.superMohr d0) k0 = some v0)
    (hok : forward m ext mask e fi md tg ftg = Except.ok (d, m2))
    (k : String) (v : Val)
    (h1 : k ≠ "tags") (h2 : k ≠ "frame_tags") (h3 : k ≠ "frame_loss")
    (h4 : k ≠ "role_loss") (h5 : k ≠ "loss")
    (hbase : dget (forwardBase m ext mask e fi md) k = some v) :
    dget d k = some v := by
  cases tg with
  | none =>
    rw [forward] at hok
    cases hE : md.isEmpty with
    | true => rw [hE] at hok; simp at hok
    | false =>
      rw [hE] at hok
      simp only [Bool.false_eq_true, if_false, Except.ok.injEq, Prod.mk.injEq] at hok
      obtain ⟨hd, -⟩ := hok
      rw [← hd]
      exact hbase
  | some tg =>
    cases ftg with
    | none =>
      rw [forward] at hok
      cases hE : md.isEmpty with
      | true => rw [hE] at hok; simp at hok
      | false => rw [hE] at hok; simp at hok
    | some ftg =>
      obtain ⟨d4, m4, hd, -, -, hpres⟩ :=
        forward_some_ok m ext mask e fi md tg ftg d m2 hok
      subst hd
      rw [dget_dictSet_ne _ _ _ _ h5, dget_dictSet_ne _ _ _ _ h4,
        dget_dictSet_ne _ _ _ _ h3]
      exact hpres k v h1 h2 hsm hbase

/-- C2: for every forward call with gold tags that returns, the output
dictionary carries `"role_loss"`, `"frame_loss"` and `"loss"`, and the
value under `"loss"` is the arithmetic mean of the other two. -/
theorem C2_forward_joint_loss (m : Model) (ext : Externals)
    (mask : List (List Bool)) (e : List (List (List ℚ)))
    (fi : List (List Nat)) (md : List Metadata)
    (tg : List (List Nat)) (ftgo : Option (List (List Nat)))
    (d : OutDict) (m2 : Model)
    (hok : forward m ext mask e fi md (some tg) ftgo = Except.ok (d, m2)) :
    ∃ r f, dget d "role_loss" = some (Val.vq r) ∧
      dget d "frame_loss" = some (Val.vq f) ∧
      dget d "loss" = some (Val.vq ((r + f) / 2)) := by
  cases ftgo with
  | none =>
    rw [forward] at hok
    cases hE : md.isEmpty with
    | true => rw [hE] at hok; simp at hok
    | false => rw [hE] at hok; simp at hok
  | some ftg =>
  obtain ⟨d4, m4, hd, -, -, -⟩ :=
    forward_some_ok m ext mask e fi md tg ftg d m2 hok
  subst hd
  refine ⟨ext.scel (e.map (fun row => row.map (linear m.tagW m.tagB))) tg mask,
    ext.ce ((maskSel e fi).map (linear m.frameW m.frameB)) (maskSel ftg fi),
    ?_, ?_, ?_⟩
  · rw [dget_dictSet_ne _ _ _ _ (by decide), dget_dictSet_self]
  · rw [dget_dictSet_ne _ _ _ _ (by decide), dget_dictSet_ne _ _ _ _ (by decide),
      dget_dictSet_self]
  · rw [dget_dictSet_self]

/-- C9: a forward call without gold tags returns the model state
unchanged — neither metric accumulator is touched — and its output
dictionary carries none of the three loss keys. -/
theorem C9_forward_no_gold_tags (m : Model) (ext : Externals)
    (mask : List (List Bool)) (e : List (List (List ℚ)))
    (fi : List (List Nat)) (md : List Metadata)
    (ftg : Option (List (List Nat)))
    (hne : md.isEmpty = false) :
    ∃ d, forward m ext mask e fi md none ftg = Except.ok (d, m) ∧
      dget d "loss" = none ∧ dget d "role_loss" = none ∧
      dget d "frame_loss" = none := by
  refine ⟨forwardBase m ext mask e fi md, ?_, ?_, ?_, ?_⟩
  · rw [forward, hne]
    simp
  · exact (forwardBase_absent m ext mask e fi md).1
  · exact (forwardBase_absent m ext mask e fi md).2.1
  · exact (forwardBase_absent m ext mask e fi md).2.2.1

/-- C10: in every dictionary `forward` returns, `"words"`, `"verb"` and
`"wordpiece_offsets"` hold one entry per batch example, while
`"lemmas"` holds the flattened concatenation of every example's lemma
list, whose length is the total lemma count, not the batch size. -/
theorem C10_forward_metadata_lists (m : Model) (ext : Externals)
    (mask : List (List Bool)) (e : List (List (List ℚ)))
    (fi : List (List Nat)) (md : List Metadata)
    (tg ftg : Option (List (List Nat))) (d : OutDict) (m2 : Model)
    (hsm : ∀ d0 k0 v0, dget d0 k0 = some v0 → dget (ext.superMohr d0) k0 = some v0)
    (hok : forward m ext mask e fi md tg ftg = Except.ok (d, m2)) :
    dget d "words" = some (Val.vwords (md.map Metadata.words)) ∧
    (md.map Metadata.words).length = md.length ∧
    dget d "verb" = some (Val.vstrs (md.map Metadata.verb)) ∧
    (md.map Metadata.verb).length = md.length ∧
    dget d "wordpiece_offsets" = some (Val.voffs (md.map Metadata.offsets)) ∧
    (md.map Metadata.offsets).length = md.length ∧
    dget d "lemmas" = some (Val.vstrs ((md.map Metadata.lemmas).flatten)) ∧
    (md.map Metadata.lemmas).flatten.length =
      ((md.map Metadata.lemmas).map List.length).sum := by
  obtain ⟨hlog, hflog, hcp, hfp, hmask, hwords, hlem, hverb, hoffs⟩ :=
    forwardBase_bindings m ext mask e fi md
  refine ⟨?_, by simp, ?_, by simp, ?_, by simp, ?_, by simp⟩
  · exact forward_ok_preserves_base m ext mask e fi md tg ftg d m2 hsm hok
      "words" _ (by decide) (by decide) (by decide) (by decide) (by decide) hwords
  · exact forward_ok_preserves_base m ext mask e fi md tg ftg d m2 hsm hok
      "verb" _ (by decide) (by decide) (by decide) (by decide) (by decide) hverb
  · exact forward_ok_preserves_base m ext mask e fi md tg ftg d m2 hsm hok
      "wordpiece_offsets" _ (by decide) (by decide) (by decide) (by decide) (by decide) hoffs
  · exact forward_ok_preserves_base m ext mask e fi md tg ftg d m2 hsm hok
      "lemmas" _ (by decide) (by decide) (by decide) (by decide) (by decide) hlem

/-- Each output vector of a linear layer has one entry per weight row
(clipped by the bias length). -/
theorem linear_length (w : List (List ℚ)) (b : List ℚ) (x : List ℚ) :
    (linear w b x).length = min w.length b.length := by
  simp [linear]

/-- C6: every dictionary `forward` returns carries both heads jointly:
`"logits"` of shape batch × tokens × tag-vocabulary with
`"class_probabilities"` its per-token softmax, `"frame_logits"` with
`"frame_probabilities"` their softmax, together with `"mask"`,
`"words"`, `"lemmas"`, `"verb"` and `"wordpiece_offsets"`. -/
theorem C6_forward_joint_outputs (m : Model) (ext : Externals)
    (mask : List (List Bool)) (e : List (List (List ℚ)))
    (fi : List (List Nat)) (md : List Metadata)
    (tg ftg : Option (List (List Nat))) (d : OutDict) (m2 : Model) (n : Nat)
    (hsm : ∀ d0 k0 v0, dget d0 k0 = some v0 → dget (ext.superMohr d0) k0 = some v0)
    (hok : forward m ext mask e fi md tg ftg = Except.ok (d, m2))
    (hrect : ∀ r ∈ e, r.length = n)
    (hW : m.tagW.length = m.num_classes)
    (hB : m.tagB.length = m.num_classes) :
    ∃ (L : List (List (List ℚ))) (FL : List (List ℚ)),
      dget d "logits" = some (Val.t3 L) ∧
      L = e.map (fun row => row.map (linear m.tagW m.tagB)) ∧
      L.length = e.length ∧
      (∀ r ∈ L, r.length = n) ∧
      (∀ r ∈ L, ∀ x ∈ r, x.length = m.num_classes) ∧
      dget d "class_probabilities" = some (Val.t3 (L.map (fun row => row.map ext.sm))) ∧
      dget d "frame_logits" = some (Val.t2 FL) ∧
      FL = (maskSel e fi).map (linear m.frameW m.frameB) ∧
      dget d "frame_probabilities" = some (Val.t2 (FL.map ext.sm)) ∧
      dget d "mask" = some (Val.tmask mask) ∧
      (dget d "words").isSome ∧ (dget d "lemmas").isSome ∧
      (dget d "verb").isSome ∧ (dget d "wordpiece_offsets").isSome := by
  obtain ⟨hlog, hflog, hcp, hfp, hmask, hwords, hlem, hverb, hoffs⟩ :=
    forwardBase_bindings m ext mask e fi md
  have pres := forward_ok_preserves_base m ext mask e fi md tg ftg d m2 hsm hok
  refine ⟨e.map (fun row => row.map (linear m.tagW m.tagB)),
    (maskSel e fi).map (linear m.frameW m.frameB),
    pres "logits" _ (by decide) (by decide) (by decide) (by decide) (by decide) hlog,
    rfl, by simp, ?_, ?_,
    pres "class_probabilities" _ (by decide) (by decide) (by decide) (by decide) (by decide) hcp,
    pres "frame_logits" _ (by decide) (by decide) (by decide) (by decide) (by decide) hflog,
    rfl,
    pres "frame_probabilities" _ (by decide) (by decide) (by decide) (by decide) (by decide) hfp,
    pres "mask" _ (by decide) (by decide) (by decide) (by decide) (by decide) hmask,
    ?_, ?_, ?_, ?_⟩
  · intro r hr
    obtain ⟨row, hrow, hmap⟩ := List.mem_map.mp hr
    rw [← hmap]
    simpa using hrect row hrow
  · intro r hr x hx
    obtain ⟨row, hrow, hmap⟩ := List.mem_map.mp hr
    rw [← hmap] at hx
    obtain ⟨y, hy, hlin⟩ := List.mem_map.mp hx
    rw [← hlin, linear_length, hW, hB]
    exact Nat.min_self _
  · exact Option.isSome_iff_exists.mpr ⟨_,
      pres "words" _ (by decide) (by decide) (by decide) (by decide) (by decide) hwords⟩
  · exact Option.isSome_iff_exists.mpr ⟨_,
      pres "lemmas" _ (by decide) (by decide) (by decide) (by decide) (by decide) hlem⟩
  · exact Option.isSome_iff_exists.mpr ⟨_,
      pres "verb" _ (by decide) (by decide) (by decide) (by decide) (by decide) hverb⟩
  · exact Option.isSome_iff_exists.mpr ⟨_,
      pres "wordpiece_offsets" _ (by decide) (by decide) (by decide) (by decide) (by decide) hoffs⟩

/-- C7: the lemma-to-frames mapping is loaded exactly once, at
construction (the constructed model's dictionary is the one
`read_dictionary` produced from the resource file), and no later
operation — `forward`, `decode_frames`, `make_output_human_readable`,
`get_metrics` — modifies `lemm_frame_dict`. -/
theorem C7_lemma_dict_static :
    (∀ openResult vi vt nc fnc tw tb fw fb sg ig m,
      srlInit openResult vi vt nc fnc tw tb fw fb sg ig = Except.ok m →
      ∃ dd, read_dictionary_file openResult = Except.ok dd ∧
        m.lemm_frame_dict = dd) ∧
    (∀ m ext mask e fi md tg ftg d m2,
      forward m ext mask e fi md tg ftg = Except.ok (d, m2) →
      m2.lemm_frame_dict = m.lemm_frame_dict) ∧
    (∀ m d0 d2 m2,
      decode_frames m d0 = Except.ok (d2, m2) →
      m2.lemm_frame_dict = m.lemm_frame_dict) ∧
    (∀ m ext d0 d2 m2,
      make_output_human_readable m ext d0 = Except.ok (d2, m2) →
      m2.lemm_frame_dict = m.lemm_frame_dict) ∧
    (∀ m reset mdict fdict g m2,
      get_metrics m reset mdict fdict = Except.ok (g, m2) →
      m2.lemm_frame_dict = m.lemm_frame_dict) := by
  refine ⟨?_, ?_, ?_, ?_, ?_⟩
  · intro openResult vi vt nc fnc tw tb fw fb sg ig m h
    unfold srlInit at h
    cases hrd : read_dictionary_file openResult with
    | error e => rw [hrd] at h; cases h
    | ok dd =>
      rw [hrd] at h
      injection h with h2
      exact ⟨dd, rfl, by rw [← h2]⟩
  · intro m ext mask e fi md tg ftg d m2 hok
    cases tg with
    | none =>
      rw [forward] at hok
      cases hE : md.isEmpty with
      | true => rw [hE] at hok; simp at hok
      | false =>
        rw [hE] at hok
        simp only [Bool.false_eq_true, if_false, Except.ok.injEq,
          Prod.mk.injEq] at hok
        rw [← hok.2]
    | some tg =>
      cases ftg with
      | none =>
        rw [forward] at hok
        cases hE : md.isEmpty with
        | true => rw [hE] at hok; simp at hok
        | false => rw [hE] at hok; simp at hok
      | some ftg =>
        obtain ⟨d4, m4, -, hm, hlemm, -⟩ :=
          forward_some_ok m ext mask e fi md tg ftg d m2 hok
        rw [hm]
        simpa using hlemm
  · intro m d0 d2 m2 h
    obtain ⟨hm, -⟩ := decode_frames_ok m d0 d2 m2 h
    rw [hm]
  · intro m ext d0 d2 m2 h
    obtain ⟨hm, -⟩ :=
      decode_frames_ok m (ext.superMohr d0) d2 m2
        (by simpa [make_output_human_readable] using h)
    rw [hm]
  · intro m reset mdict fdict g m2 h
    unfold get_metrics at h
    cases hig : m.ignore_span_metric with
    | true =>
      rw [hig] at h
      simp only [if_true] at h
      injection h with h2
      simp only [Prod.mk.injEq] at h2
      rw [← h2.2]
    | false =>
      rw [hig] at h
      simp only [Bool.false_eq_true, if_false] at h
      cases hsp : m.span_metric with
      | none => rw [hsp] at h; cases h
      | some c =>
        rw [hsp] at h
        injection h with h2
        cases hr : reset <;> rw [hr] at h2 <;>
          simp only [Prod.mk.injEq] at h2 <;> rw [← h2.2] <;> simp

/-- C5: failures propagate as raised by lower layers, untranslated: a
failing resource-file open fails construction with the very same error;
a failing encoder call fails `forward` with the same error; failing
vocabulary lookups fail `decode_frames` with the same error. -/
theorem C5_error_propagation :
    (∀ e vi vt nc fnc tw tb fw fb sg ig,
      srlInit (Except.error e) vi vt nc fnc tw tb fw fb sg ig =
        Except.error e) ∧
    (∀ e m ext mask dropoutF fi md tg ftg,
      forward_full m ext mask (Except.error e) dropoutF fi md tg ftg =
        Except.error e) ∧
    (∀ e m d0 fp lems,
      dget d0 "frame_probabilities" = some (Val.t2 fp) →
      dget d0 "lemmas" = some (Val.vstrs lems) →
      (lems.map m.lemm_frame_dict).flatten.mapM m.vocabIdx = Except.error e →
      decode_frames m d0 = Except.error e) := by
  refine ⟨fun e vi vt nc fnc tw tb fw fb sg ig => rfl,
    fun e m ext mask dropoutF fi md tg ftg => rfl,
    fun e m d0 fp lems hfp hlem hmapM => ?_⟩
  simp only [decode_frames, hfp, hlem, hmapM]

/-! ## Concrete instances for the witnesses -/

/-- Identity/constant stand-ins for the external framework calls. -/
def extW : Externals where
  sm := fun r => r
  scel := fun _ _ _ => 1
  ce := fun _ _ => 3
  superMohr := fun d => d

/-- A concrete, shape-consistent model in training mode: one tag class,
one frame class, hidden size two. -/
def mW : Model where
  lemm_frame_dict := fun l => if l = "run" then ["MOTION"] else []
  vocabIdx := fun t => if t = "MOTION" then Except.ok 0 else Except.error "KeyError"
  vocabTok := fun i => if i = 0 then Except.ok "MOTION" else Except.error "KeyError"
  num_classes := 1
  frame_num_classes := 1
  tagW := [[1, 0]]
  tagB := [0]
  frameW := [[1, 0]]
  frameB := [0]
  span_metric := some 0
  f1_frame_metric := 0
  ignore_span_metric := false
  training := true

/-- One concrete metadata record. -/
def mdW : Metadata where
  words := ["He", "runs"]
  verb := "runs"
  offsets := [1, 2]
  lemmas := ["run"]
  verb_index := 1
  gold_tags := ["O", "B-V"]

/-- `mW` with an empty lemma-to-frames dictionary (no candidates). -/
def mWempty : Model := { mW with lemm_frame_dict := fun _ => [] }

/-- `mC1` with a candidate frame that is missing from the vocabulary. -/
def mBad : Model :=
  { mC1 with lemm_frame_dict := fun l => if l = "run" then ["FLY"] else [] }

/-- Witness for C2 on a concrete one-example batch. -/
theorem C2_forward_joint_loss_witness :
    ∃ d m2, forward mW extW [[true, true]] [[[1, 2], [3, 4]]] [[1, 0]] [mdW]
        (some [[0, 0]]) (some [[0, 0]]) = Except.ok (d, m2) ∧
      ∃ r f, dget d "role_loss" = some (Val.vq r) ∧
        dget d "frame_loss" = some (Val.vq f) ∧
        dget d "loss" = some (Val.vq ((r + f) / 2)) := by
  refine ⟨_, _, rfl, ?_⟩
  exact C2_forward_joint_loss mW extW [[true, true]] [[[1, 2], [3, 4]]]
    [[1, 0]] [mdW] [[0, 0]] (some [[0, 0]]) _ _ rfl

/-- Witness for C9 on a concrete one-example batch without gold tags. -/
theorem C9_forward_no_gold_tags_witness :
    (([mdW] : List Metadata).isEmpty = false) ∧
      ∃ d, forward mW extW [[true, true]] [[[1, 2], [3, 4]]] [[1, 0]] [mdW]
          none none = Except.ok (d, mW) ∧
        dget d "loss" = none ∧ dget d "role_loss" = none ∧
        dget d "frame_loss" = none := by
  refine ⟨rfl, ?_⟩
  exact C9_forward_no_gold_tags mW extW [[true, true]] [[[1, 2], [3, 4]]]
    [[1, 0]] [mdW] none rfl

/-- Witness for C10 on a concrete one-example batch. -/
theorem C10_forward_metadata_lists_witness :
    ∃ d m2, forward mW extW [[true, true]] [[[1, 2], [3, 4]]] [[1, 0]] [mdW]
        (some [[0, 0]]) (some [[0, 0]]) = Except.ok (d, m2) ∧
      (dget d "words" = some (Val.vwords (([mdW] : List Metadata).map Metadata.words)) ∧
       (([mdW] : List Metadata).map Metadata.words).length = ([mdW] : List Metadata).length ∧
       dget d "verb" = some (Val.vstrs (([mdW] : List Metadata).map Metadata.verb)) ∧
       (([mdW] : List Metadata).map Metadata.verb).length = ([mdW] : List Metadata).length ∧
       dget d "wordpiece_offsets" = some (Val.voffs (([mdW] : List Metadata).map Metadata.offsets)) ∧
       (([mdW] : List Metadata).map Metadata.offsets).length = ([mdW] : List Metadata).length ∧
       dget d "lemmas" = some (Val.vstrs ((([mdW] : List Metadata).map Metadata.lemmas).flatten)) ∧
       (([mdW] : List Metadata).map Metadata.lemmas).flatten.length =
         ((([mdW] : List Metadata).map Metadata.lemmas).map List.length).sum) := by
  refine ⟨_, _, rfl, ?_⟩
  exact C10_forward_metadata_lists mW extW [[true, true]] [[[1, 2], [3, 4]]]
    [[1, 0]] [mdW] (some [[0, 0]]) (some [[0, 0]]) _ _
    (fun d0 k0 v0 h => h) rfl

/-- Witness for C6 on a concrete one-example batch. -/
theorem C6_forward_joint_outputs_witness :
    ∃ d m2, forward mW extW [[true, true]] [[[1, 2], [3, 4]]] [[1, 0]] [mdW]
        (some [[0, 0]]) (some [[0, 0]]) = Except.ok (d, m2) ∧
      (∀ r ∈ [[[(1 : ℚ), 2], [3, 4]]], r.length = 2) ∧
      mW.tagW.length = mW.num_classes ∧
      mW.tagB.length = mW.num_classes ∧
      ∃ (L : List (List (List ℚ))) (FL : List (List ℚ)),
        dget d "logits" = some (Val.t3 L) ∧
        L = [[[(1 : ℚ), 2], [3, 4]]].map (fun row => row.map (linear mW.tagW mW.tagB)) ∧
        L.length = ([[[(1 : ℚ), 2], [3, 4]]] : List (List (List ℚ))).length ∧
        (∀ r ∈ L, r.length = 2) ∧
        (∀ r ∈ L, ∀ x ∈ r, x.length = mW.num_classes) ∧
        dget d "class_probabilities" = some (Val.t3 (L.map (fun row => row.map extW.sm))) ∧
        dget d "frame_logits" = some (Val.t2 FL) ∧
        FL = (maskSel [[[(1 : ℚ), 2], [3, 4]]] [[1, 0]]).map (linear mW.frameW mW.frameB) ∧
        dget d "frame_probabilities" = some (Val.t2 (FL.map extW.sm)) ∧
        dget d "mask" = some (Val.tmask [[true, true]]) ∧
        (dget d "words").isSome ∧ (dget d "lemmas").isSome ∧
        (dget d "verb").isSome ∧ (dget d "wordpiece_offsets").isSome := by
  refine ⟨_, _, rfl, by decide, rfl, rfl, ?_⟩
  exact C6_forward_joint_outputs mW extW [[true, true]] [[[1, 2], [3, 4]]]
    [[1, 0]] [mdW] (some [[0, 0]]) (some [[0, 0]]) _ _ 2
    (fun d0 k0 v0 h => h) rfl (by decide) rfl rfl

/-- Witness for C7: a concrete successful `decode_frames` call leaves
the lemma dictionary untouched. -/
theorem C7_lemma_dict_static_witness :
    decode_frames mWempty dC1 =
      Except.ok (dictSet dC1 "frame_tags" (Val.vstrs []), mWempty) ∧
      mWempty.lemm_frame_dict = mWempty.lemm_frame_dict := by
  refine ⟨rfl, ?_⟩
  exact C7_lemma_dict_static.2.2.1 mWempty dC1 _ _ rfl

/-- Witness for C5: a concrete vocabulary failure inside
`decode_frames` propagates out unchanged. -/
theorem C5_error_propagation_witness :
    dget dC1 "frame_probabilities" = some (Val.t2 [[(3 : ℚ)/5, 2/5]]) ∧
    dget dC1 "lemmas" = some (Val.vstrs ["run"]) ∧
    (["run"].map mBad.lemm_frame_dict).flatten.mapM mBad.vocabIdx =
      Except.error "KeyError" ∧
    decode_frames mBad dC1 = Except.error "KeyError" := by
  refine ⟨rfl, rfl, rfl, ?_⟩
  exact C5_error_propagation.2.2 "KeyError" mBad dC1 [[(3 : ℚ)/5, 2/5]] ["run"]
    rfl rfl rfl

/-! ## C4: `get_metrics` -/

theorem pyDict_append (xs ys : List (String × ℚ)) (k : String) :
    pyDict (xs ++ ys) k =
      match pyDict ys k with
      | some v => some v
      | none => pyDict xs k := by
  unfold pyDict
  rw [List.reverse_append, List.find?_append]
  cases hy : ys.reverse.find? (fun p => p.1 == k) <;> simp [hy, Option.or]

theorem find_entry_of_nodup (ps : List (String × ℚ)) (k : String) (v : ℚ)
    (hnd : (ps.map Prod.fst).Nodup) (hm : (k, v) ∈ ps) :
    ps.find? (fun p => p.1 == k) = some (k, v) := by
  induction ps with
  | nil => simp at hm
  | cons p ps ih =>
    rw [List.map_cons, List.nodup_cons] at hnd
    rcases List.mem_cons.mp hm with h1 | h2
    · rw [← h1]
      simp [List.find?]
    · have hne : p.1 ≠ k := by
        intro he
        exact hnd.1 (he ▸ List.mem_map.mpr ⟨(k, v), h2, rfl⟩)
      rw [List.find?_cons_of_neg _ (by simp [hne])]
      exact ih hnd.2 h2

theorem pyDict_mem_of_nodup (ps : List (String × ℚ)) (k : String) (v : ℚ)
    (hnd : (ps.map Prod.fst).Nodup) (hm : (k, v) ∈ ps) :
    pyDict ps k = some v := by
  unfold pyDict
  rw [find_entry_of_nodup ps.reverse k v ?_ ?_]
  · rfl
  · rw [List.map_reverse]
    exact List.nodup_reverse.mpr hnd
  · exact List.mem_reverse.mpr hm

theorem pyDict_eq_none (ps : List (String × ℚ)) (k : String)
    (h : ∀ p ∈ ps, p.1 ≠ k) : pyDict ps k = none := by
  unfold pyDict
  rw [List.find?_eq_none.mpr ?_]
  · rfl
  · intro p hp
    simpa using h p (List.mem_reverse.mp hp)

/-- A key renamed with the `"_role"` suffix can never collide with a key
renamed with the `"_frame"` suffix. -/
theorem role_ne_frame (a b : String) : a ++ "_role" ≠ b ++ "_frame" := by
  intro h
  have h2 : a.data ++ "_role".data = b.data ++ "_frame".data := by
    have h3 := congrArg String.data h
    rw [String.data_append, String.data_append] at h3
    exact h3
  have h4 := congrArg List.reverse h2
  rw [List.reverse_append, List.reverse_append] at h4
  have hr : "_role".data.reverse = ['e', 'l', 'o', 'r', '_'] := by decide
  have hf : "_frame".data.reverse = ['e', 'm', 'a', 'r', 'f', '_'] := by decide
  rw [hr, hf] at h4
  injection h4 with h5 h6
  injection h6 with h7 h8
  exact absurd h7 (by decide)

/-- Appending a fixed suffix to a string is injective. -/
theorem append_sfx_injective (sfx : String) :
    Function.Injective (fun s : String => s ++ sfx) := by
  intro a b hab
  have h2 := congrArg String.data hab
  rw [String.data_append, String.data_append] at h2
  exact String.ext (List.append_cancel_right h2)

/-- `mW` with the span metric ignored. -/
def mIgnore : Model := { mW with ignore_span_metric := true }

/-- `mW` constructed with `srl_eval_path=None`: no span scorer. -/
def mNoScorer : Model := { mW with span_metric := none }

/-- Lookup two keys in the dictionary a `get_metrics` call produced
(`none` if the call raised). -/
def getMetricsLookups (r : Except String ((String → Option ℚ) × Model))
    (k1 k2 : String) : Option (Option ℚ × Option ℚ) :=
  match r with
  | Except.ok p => some (p.1 k1, p.1 k2)
  | Except.error _ => none

/-- C4 (counterexample): `get_metrics` does not return both metric
families for every call.  With `ignore_span_metric` set it returns the
empty dictionary — no `_role` entry and no `_frame` entry — and with
`ignore_span_metric` unset but the span scorer `None`
(`srl_eval_path=None`) it raises instead of returning at all. -/
theorem C4_get_metrics_counterexample :
    getMetricsLookups
      (get_metrics mIgnore false [("f1-measure-overall", 1)] [("fscore", 1)])
      "f1_role" "fscore_frame" = some (none, none) ∧
    get_metrics mNoScorer false [("f1-measure-overall", 1)] [("fscore", 1)] =
      Except.error "AttributeError: NoneType object has no attribute get_metric" := by
  exact ⟨rfl, rfl⟩

/-- C4 (amended): when `ignore_span_metric` is false and the span scorer
is present, the dictionary `get_metrics` returns carries both metric
families — every frame-metric entry under its key with `"_frame"`
appended, and every overall span entry under its dash-prefix with
`"_role"` appended (assuming, as the scorers guarantee, no duplicate
renamed keys) — while with `ignore_span_metric` set the call returns the
empty dictionary, and with `ignore_span_metric` unset but no span scorer
it raises. -/
theorem C4_get_metrics_role_and_frame :
    (∀ (m : Model) (reset : Bool) (mdict fdict : List (String × ℚ)) (k : String),
      m.ignore_span_metric = true →
      ∃ g m2, get_metrics m reset mdict fdict = Except.ok (g, m2) ∧ g k = none) ∧
    (∀ (m : Model) (reset : Bool) (mdict fdict : List (String × ℚ))
        (k : String) (v : ℚ),
      m.ignore_span_metric = false → m.span_metric.isSome →
      (fdict.map Prod.fst).Nodup → (k, v) ∈ fdict →
      ∃ g m2, get_metrics m reset mdict fdict = Except.ok (g, m2) ∧
        g (k ++ "_frame") = some v) ∧
    (∀ (m : Model) (reset : Bool) (mdict fdict : List (String × ℚ))
        (k : String) (v : ℚ),
      m.ignore_span_metric = false → m.span_metric.isSome →
      ((mdict.filter (fun p => strHasSub p.1 "overall")).map
        (fun p => dashHead p.1)).Nodup →
      (k, v) ∈ mdict → strHasSub k "overall" = true →
      ∃ g m2, get_metrics m reset mdict fdict = Except.ok (g, m2) ∧
        g (dashHead k ++ "_role") = some v) ∧
    (∀ (m : Model) (reset : Bool) (mdict fdict : List (String × ℚ)),
      m.ignore_span_metric = false → m.span_metric = none →
      get_metrics m reset mdict fdict =
        Except.error "AttributeError: NoneType object has no attribute get_metric") := by
  refine ⟨?_, ?_, ?_, ?_⟩
  · intro m reset mdict fdict k hig
    exact ⟨pyDict [], m, by simp [get_metrics, hig], rfl⟩
  · intro m reset mdict fdict k v hig hsp hnd hm
    obtain ⟨c, hc⟩ := Option.isSome_iff_exists.mp hsp
    have hframe : pyDict (fdict.map (fun p => (p.1 ++ "_frame", p.2)))
        (k ++ "_frame") = some v := by
      apply pyDict_mem_of_nodup
      · rw [List.map_map,
          show (Prod.fst ∘ fun p : String × ℚ => (p.1 ++ "_frame", p.2)) =
            (fun s : String => s ++ "_frame") ∘ Prod.fst from rfl,
          ← List.map_map]
        exact hnd.map (append_sfx_injective "_frame")
      · exact List.mem_map.mpr ⟨(k, v), hm, rfl⟩
    have hg : pyDict ((mdict.filter (fun p => strHasSub p.1 "overall")).map
        (fun p => (dashHead p.1 ++ "_role", p.2)) ++
        fdict.map (fun p => (p.1 ++ "_frame", p.2))) (k ++ "_frame") = some v := by
      rw [pyDict_append, hframe]
    have hfull : get_metrics m reset mdict fdict =
        Except.ok (pyDict ((mdict.filter (fun p => strHasSub p.1 "overall")).map
            (fun p => (dashHead p.1 ++ "_role", p.2)) ++
            fdict.map (fun p => (p.1 ++ "_frame", p.2))),
          if reset then { m with span_metric := m.span_metric.map (fun _ => 0), f1_frame_metric := 0 } else m) := by
      unfold get_metrics
      simp [hig, hc]
    exact ⟨_, _, hfull, hg⟩
  · intro m reset mdict fdict k v hig hsp hnd hm hsub
    obtain ⟨c, hc⟩ := Option.isSome_iff_exists.mp hsp
    have hrole : pyDict ((mdict.filter (fun p => strHasSub p.1 "overall")).map
        (fun p => (dashHead p.1 ++ "_role", p.2))) (dashHead k ++ "_role") = some v := by
      apply pyDict_mem_of_nodup
      · rw [List.map_map,
          show (Prod.fst ∘ fun p : String × ℚ => (dashHead p.1 ++ "_role", p.2)) =
            (fun s : String => s ++ "_role") ∘ (fun p : String × ℚ => dashHead p.1) from rfl,
          ← List.map_map]
        exact hnd.map (append_sfx_injective "_role")
      · exact List.mem_map.mpr ⟨(k, v), List.mem_filter.mpr ⟨hm, hsub⟩, rfl⟩
    have hnone : pyDict (fdict.map (fun p => (p.1 ++ "_frame", p.2)))
        (dashHead k ++ "_role") = none := by
      apply pyDict_eq_none
      intro p hp
      obtain ⟨q, hq, hpq⟩ := List.mem_map.mp hp
      rw [← hpq]
      exact fun hcontra => role_ne_frame (dashHead k) q.1 hcontra.symm
    have hg : pyDict ((mdict.filter (fun p => strHasSub p.1 "overall")).map
        (fun p => (dashHead p.1 ++ "_role", p.2)) ++
        fdict.map (fun p => (p.1 ++ "_frame", p.2))) (dashHead k ++ "_role") = some v := by
      rw [pyDict_append, hnone, hrole]
    have hfull : get_metrics m reset mdict fdict =
        Except.ok (pyDict ((mdict.filter (fun p => strHasSub p.1 "overall")).map
            (fun p => (dashHead p.1 ++ "_role", p.2)) ++
            fdict.map (fun p => (p.1 ++ "_frame", p.2))),
          if reset then { m with span_metric := m.span_metric.map (fun _ => 0), f1_frame_metric := 0 } else m) := by
      unfold get_metrics
      simp [hig, hc]
    exact ⟨_, _, hfull, hg⟩
  · intro m reset mdict fdict hig hsp
    unfold get_metrics
    simp [hig, hsp]

/-- Witness for the amended C4 on concrete one-entry metric
dictionaries. -/
theorem C4_get_metrics_role_and_frame_witness :
    (mW.ignore_span_metric = false ∧ mW.span_metric.isSome ∧
      (([("fscore", (2 : ℚ))].map Prod.fst).Nodup) ∧
      ("fscore", (2 : ℚ)) ∈ [("fscore", (2 : ℚ))]) ∧
    ∃ g m2, get_metrics mW false [("f1-measure-overall", (1 : ℚ))]
        [("fscore", (2 : ℚ))] = Except.ok (g, m2) ∧
      g ("fscore" ++ "_frame") = some 2 := by
  refine ⟨⟨rfl, rfl, by decide, by decide⟩, ?_⟩
  exact C4_get_metrics_role_and_frame.2.1 mW false
    [("f1-measure-overall", 1)] [("fscore", 2)] "fscore" 2 rfl rfl
    (by decide) (by decide)
